import Mathlib

/-!
Shallow embedding of `src/toy_robot_simulator.py`: a toy robot on a 5x5
table, driven by textual commands (PLACE, MOVE, LEFT, RIGHT, REPORT).

Python's nullable fields are `Option`s, Python exceptions are the
`PyExn` error type of `Except`, and machine integers are `Int`
(Python ints are unbounded, so no modular wrap is needed).
-/

namespace ToyRobotSim

instance {ε α : Type} [DecidableEq ε] [DecidableEq α] : DecidableEq (Except ε α) := fun a b =>
  match a, b with
  | .ok x, .ok y =>
    if h : x = y then isTrue (congrArg Except.ok h)
    else isFalse (fun hh => h (by injection hh))
  | .error e, .error f =>
    if h : e = f then isTrue (congrArg Except.error h)
    else isFalse (fun hh => h (by injection hh))
  | .ok _, .error _ => isFalse (fun hh => Except.noConfusion hh)
  | .error _, .ok _ => isFalse (fun hh => Except.noConfusion hh)

/-- The Python exception classes that the simulator can raise. -/
inductive PyExn where
  | valueError
  | indexError
  | keyError
  | typeError
  | attributeError
deriving DecidableEq

/-- Embedding of `class Direction(Enum)` with members NORTH=0, EAST=1, SOUTH=2, WEST=3. -/
inductive Direction where
  | NORTH
  | EAST
  | SOUTH
  | WEST
deriving DecidableEq

/-- The `.value` of each `Direction` enum member. -/
def Direction.value : Direction → Int
  | .NORTH => 0
  | .EAST => 1
  | .SOUTH => 2
  | .WEST => 3

/-- The `.name` of each `Direction` enum member. -/
def Direction.pyName : Direction → String
  | .NORTH => "NORTH"
  | .EAST => "EAST"
  | .SOUTH => "SOUTH"
  | .WEST => "WEST"

/-- The enum constructor `Direction(v)`: member with the given value, if any. -/
def Direction.ofValue? : Int → Option Direction
  | 0 => some .NORTH
  | 1 => some .EAST
  | 2 => some .SOUTH
  | 3 => some .WEST
  | _ => none

/-- The enum name lookup `Direction[name]` (case-sensitive), as an `Option`;
`none` corresponds to Python's `KeyError`. -/
def Direction.fromName? (s : String) : Option Direction :=
  if s = "NORTH" then some .NORTH
  else if s = "EAST" then some .EAST
  else if s = "SOUTH" then some .SOUTH
  else if s = "WEST" then some .WEST
  else none

/-- The state of `class ToyRobot`: fields `_x`, `_y`, `_direction`, `_placed`. -/
structure ToyRobot where
  x : Option Int
  y : Option Int
  direction : Option Direction
  placed : Bool
deriving DecidableEq

/-- Embedding of `ToyRobot.__init__`: all fields `None`, not placed. -/
def ToyRobot.init : ToyRobot :=
  { x := none, y := none, direction := none, placed := false }

/-- Embedding of `ToyRobot.is_valid_position`: `0 <= x < 5 and 0 <= y < 5`. -/
def is_valid_position (x y : Int) : Bool :=
  decide (0 ≤ x) && decide (x < 5) && decide (0 ≤ y) && decide (y < 5)

/-- Embedding of `ToyRobot.place`: commit position, direction and the placed flag when the
position is valid, otherwise leave the state untouched. -/
def ToyRobot.place (s : ToyRobot) (x y : Int) (d : Direction) : ToyRobot :=
  if is_valid_position x y then
    { s with x := some x, y := some y, direction := some d, placed := true }
  else s

/-- The per-direction step `(dx, dy)` of the `moves` lookup table in
`ToyRobot._get_new_position`. -/
def Direction.delta : Direction → Int × Int
  | .NORTH => (0, 1)
  | .EAST => (1, 0)
  | .SOUTH => (0, -1)
  | .WEST => (-1, 0)

/-- Embedding of `ToyRobot._get_new_position`: candidate coordinates after one step.
A `None` direction would be a `KeyError` on the `moves` dict; a `None`
coordinate would be a `TypeError` on `None + int`. -/
def ToyRobot.get_new_position (s : ToyRobot) : Except PyExn (Int × Int) :=
  match s.direction with
  | none => .error .keyError
  | some d =>
    match s.x, s.y with
    | some x, some y => .ok (x + d.delta.1, y + d.delta.2)
    | _, _ => .error .typeError

/-- Embedding of `ToyRobot.move`: no-op when not placed, otherwise commit the candidate
position exactly when it is valid. -/
def ToyRobot.move (s : ToyRobot) : Except PyExn ToyRobot :=
  if s.placed = false then .ok s
  else
    match s.get_new_position with
    | .error e => .error e
    | .ok (nx, ny) =>
      if is_valid_position nx ny then .ok { s with x := some nx, y := some ny }
      else .ok s

/-- Embedding of `ToyRobot.rotate`: when placed, set the direction to
`Direction((value + rotation) % 4)` with rotation `1` (clockwise) or `-1`.
`None.value` would be an `AttributeError`. -/
def ToyRobot.rotate (s : ToyRobot) (clockwise : Bool) : Except PyExn ToyRobot :=
  if s.placed then
    match s.direction with
    | none => .error .attributeError
    | some d =>
      match Direction.ofValue? ((d.value + (if clockwise then 1 else -1)).emod 4) with
      | some d2 => .ok { s with direction := some d2 }
      | none => .error .valueError
  else .ok s

/-- How Python's f-string formats an `Optional[int]` field (`None` prints as
`"None"`, integers in base 10). -/
def pyFormatOptInt : Option Int → String
  | none => "None"
  | some n => toString n

/-- Embedding of `ToyRobot.report`: the f-string `"x,y,NAME"` when placed, the fixed
message otherwise. `.name` on a `None` direction would be an
`AttributeError`. -/
def ToyRobot.report (s : ToyRobot) : Except PyExn String :=
  if s.placed then
    match s.direction with
    | some d => .ok (pyFormatOptInt s.x ++ "," ++ pyFormatOptInt s.y ++ "," ++ d.pyName)
    | none => .error .attributeError
  else .ok "Robot not placed on the table"

/-- Python's `str.strip()` restricted to the whitespace characters Lean
knows; the simulator only ever strips ASCII whitespace. -/
def pyStrip (cs : List Char) : List Char :=
  ((cs.dropWhile Char.isWhitespace).reverse.dropWhile Char.isWhitespace).reverse

/-- Accumulator pass of Python's no-argument `str.split()`: whitespace runs
separate maximal non-whitespace tokens, and no empty token is produced. -/
def pyWordsAux : List Char → List Char → List (List Char)
  | [], acc => if acc = [] then [] else [acc.reverse]
  | c :: cs, acc =>
    if c.isWhitespace then
      if acc = [] then pyWordsAux cs [] else acc.reverse :: pyWordsAux cs []
    else pyWordsAux cs (c :: acc)

/-- Python's no-argument `str.split()`: split on whitespace runs, dropping
empty pieces. -/
def pySplit (s : String) : List String :=
  (pyWordsAux s.data []).map String.mk

/-- Python's one-separator `str.split(',')`: split at every comma, keeping
empty fields (so `"".split(',') == ['']`). -/
def splitCommaAux : List Char → List Char → List (List Char)
  | [], acc => [acc.reverse]
  | c :: cs, acc =>
    if c = ',' then acc.reverse :: splitCommaAux cs []
    else splitCommaAux cs (c :: acc)

/-- Python's `str.split(',')` on a `String`. -/
def pySplitComma (s : String) : List String :=
  (splitCommaAux s.data []).map String.mk

/-- Digits (with Python 3.6 single-underscore group separators) continuing a
decimal literal whose leading digits evaluated to `acc`. -/
def pyDigitsRest : List Char → Nat → Option Nat
  | [], acc => some acc
  | '_' :: rest, acc =>
    match rest with
    | c :: rest2 =>
        if c.isDigit then pyDigitsRest rest2 (acc * 10 + (c.toNat - '0'.toNat))
        else none
    | [] => none
  | c :: rest, acc =>
    if c.isDigit then pyDigitsRest rest (acc * 10 + (c.toNat - '0'.toNat))
    else none

/-- Python's `int(str)` on the ASCII fragment the simulator feeds it:
optional surrounding whitespace, optional sign, then decimal digits with
optional single underscore separators; `none` is Python's `ValueError`. -/
def pyInt? (s : String) : Option Int :=
  match pyStrip s.data with
  | '+' :: c :: rest =>
      if c.isDigit then (pyDigitsRest rest (c.toNat - '0'.toNat)).map Int.ofNat
      else none
  | '-' :: c :: rest =>
      if c.isDigit then (pyDigitsRest rest (c.toNat - '0'.toNat)).map (fun n => -(Int.ofNat n))
      else none
  | c :: rest =>
      if c.isDigit then (pyDigitsRest rest (c.toNat - '0'.toNat)).map Int.ofNat
      else none
  | [] => none

/-- The body of the `try` block of the PLACE branch of `process_command`:
`parts[1].split(',')` must give exactly three fields (else `ValueError` on
unpacking), the first two must pass `int()` and the third `Direction[...]`.
All of those exceptions are caught by the same handler, so an `Option`
captures the observable behaviour. -/
def parsePlaceArg (t : String) : Option (Int × Int × Direction) :=
  match pySplitComma t with
  | [a, b, c] =>
    match pyInt? a, pyInt? b, Direction.fromName? c with
    | some x, some y, some d => some (x, y, d)
    | _, _, _ => none
  | _ => none

/-- Embedding of `process_command(robot, command)`: dispatch on the first whitespace
token. `parts[0]` on an empty split raises `IndexError` outside any
`try`, so an all-whitespace command is an uncaught exception. -/
def process_command (robot : ToyRobot) (command : String) :
    Except PyExn (ToyRobot × Option String) :=
  match pySplit command with
  | [] => .error .indexError
  | tag :: rest =>
    if tag = "PLACE" then
      match rest with
      | [] => .ok (robot, some "Invalid PLACE command")
      | arg :: _ =>
        match parsePlaceArg arg with
        | some (x, y, d) => .ok (robot.place x y d, none)
        | none => .ok (robot, some "Invalid PLACE command")
    else if tag = "MOVE" then
      match robot.move with
      | .ok r => .ok (r, none)
      | .error e => .error e
    else if tag = "LEFT" then
      match robot.rotate false with
      | .ok r => .ok (r, none)
      | .error e => .error e
    else if tag = "RIGHT" then
      match robot.rotate true with
      | .ok r => .ok (r, none)
      | .error e => .error e
    else if tag = "REPORT" then
      match robot.report with
      | .ok str => .ok (robot, some str)
      | .error e => .error e
    else .ok (robot, some "Invalid command")

/-- Feeding a list of command lines through `process_command` in order,
discarding the report strings; an uncaught exception aborts the run. -/
def run (robot : ToyRobot) : List String → Except PyExn ToyRobot
  | [] => .ok robot
  | c :: cs =>
    match process_command robot c with
    | .error e => .error e
    | .ok (r, _) => run r cs

/-- The state invariant of the spec: a placed robot has both coordinates
present and in `[0, 4]`, and an orientation present. -/
def inv (s : ToyRobot) : Bool :=
  !s.placed ||
    (match s.x, s.y, s.direction with
     | some x, some y, some _ => decide (0 ≤ x ∧ x ≤ 4 ∧ 0 ≤ y ∧ y ≤ 4)
     | _, _, _ => false)

/-! ## Helper lemmas -/

theorem is_valid_iff (x y : Int) :
    is_valid_position x y = true ↔ (0 ≤ x ∧ x ≤ 4) ∧ (0 ≤ y ∧ y ≤ 4) := by
  simp only [is_valid_position, Bool.and_eq_true, decide_eq_true_eq]
  omega

theorem move_unplaced (s : ToyRobot) (hp : s.placed = false) : s.move = .ok s := by
  simp [ToyRobot.move, hp]

theorem move_spec (s : ToyRobot) (x y : Int) (d : Direction)
    (hp : s.placed = true) (hx : s.x = some x) (hy : s.y = some y)
    (hd : s.direction = some d) :
    s.move = .ok (if is_valid_position (x + d.delta.1) (y + d.delta.2)
      then { s with x := some (x + d.delta.1), y := some (y + d.delta.2) }
      else s) := by
  by_cases hv : is_valid_position (x + d.delta.1) (y + d.delta.2) = true <;>
    simp [ToyRobot.move, ToyRobot.get_new_position, hp, hx, hy, hd, hv]

theorem move_frame (s s2 : ToyRobot) (h : s.move = .ok s2) :
    s2.direction = s.direction ∧ s2.placed = s.placed := by
  unfold ToyRobot.move at h
  split at h
  · injection h with h2
    subst h2
    exact ⟨rfl, rfl⟩
  · split at h
    · exact Except.noConfusion h
    · split at h <;> (injection h with h2; subst h2; exact ⟨rfl, rfl⟩)

theorem rotate_unplaced (s : ToyRobot) (cw : Bool) (hp : s.placed = false) :
    s.rotate cw = .ok s := by
  simp [ToyRobot.rotate, hp]

theorem rotate_eq (s : ToyRobot) (d : Direction) (cw : Bool)
    (hp : s.placed = true) (hd : s.direction = some d) :
    s.rotate cw =
      match Direction.ofValue? ((d.value + (if cw then 1 else -1)).emod 4) with
      | some d2 => .ok { s with direction := some d2 }
      | none => .error .valueError := by
  simp [ToyRobot.rotate, hp, hd]

/-- The direction one clockwise (or counter-clockwise) step away: the value
`Direction((d.value + rotation) % 4)` always exists, and is the cyclic
neighbour of `d`. -/
def rotStep (cw : Bool) : Direction → Direction
  | .NORTH => if cw then .EAST else .WEST
  | .EAST => if cw then .SOUTH else .NORTH
  | .SOUTH => if cw then .WEST else .EAST
  | .WEST => if cw then .NORTH else .SOUTH

theorem ofValue_rot (d : Direction) (cw : Bool) :
    Direction.ofValue? ((d.value + (if cw then 1 else -1)).emod 4) =
      some (rotStep cw d) := by
  cases d <;> cases cw <;> decide

theorem rotate_spec (s : ToyRobot) (d : Direction) (cw : Bool)
    (hp : s.placed = true) (hd : s.direction = some d) :
    s.rotate cw = .ok { s with direction := some (rotStep cw d) } := by
  rw [rotate_eq s d cw hp hd, ofValue_rot d cw]

theorem rotate_frame (s s2 : ToyRobot) (cw : Bool) (h : s.rotate cw = .ok s2) :
    s2.x = s.x ∧ s2.y = s.y ∧ s2.placed = s.placed := by
  unfold ToyRobot.rotate at h
  split at h
  · split at h
    · exact Except.noConfusion h
    · split at h
      · injection h with h2
        subst h2
        exact ⟨rfl, rfl, rfl⟩
      · exact Except.noConfusion h
  · injection h with h2
    subst h2
    exact ⟨rfl, rfl, rfl⟩

theorem place_unaffected (s : ToyRobot) (x y : Int) (d : Direction)
    (h : is_valid_position x y = false) : s.place x y d = s := by
  simp [ToyRobot.place, h]

theorem place_valid (s : ToyRobot) (x y : Int) (d : Direction)
    (h : is_valid_position x y = true) :
    s.place x y d =
      { s with x := some x, y := some y, direction := some d, placed := true } := by
  simp [ToyRobot.place, h]

theorem place_placed (s : ToyRobot) (x y : Int) (d : Direction) (hp : s.placed = true) :
    (s.place x y d).placed = true := by
  unfold ToyRobot.place
  split <;> simp [hp]

theorem report_unplaced (s : ToyRobot) (hp : s.placed = false) :
    s.report = .ok "Robot not placed on the table" := by
  simp [ToyRobot.report, hp]

theorem report_spec (s : ToyRobot) (d : Direction)
    (hp : s.placed = true) (hd : s.direction = some d) :
    s.report = .ok (pyFormatOptInt s.x ++ "," ++ pyFormatOptInt s.y ++ "," ++ d.pyName) := by
  simp [ToyRobot.report, hp, hd]

theorem inv_init : inv ToyRobot.init = true := rfl

theorem inv_elim (s : ToyRobot) (hi : inv s = true) (hp : s.placed = true) :
    ∃ x y d, s.x = some x ∧ s.y = some y ∧ s.direction = some d ∧
      (0 ≤ x ∧ x ≤ 4) ∧ (0 ≤ y ∧ y ≤ 4) := by
  unfold inv at hi
  rcases hx : s.x with _ | x <;> rcases hy : s.y with _ | y <;>
    rcases hd : s.direction with _ | d <;>
    simp only [hp, hx, hy, hd, Bool.not_true, Bool.false_or, decide_eq_true_eq,
      Bool.false_eq_true] at hi
  exact ⟨x, y, d, rfl, rfl, rfl, ⟨hi.1, hi.2.1⟩, ⟨hi.2.2.1, hi.2.2.2⟩⟩

theorem inv_place (s : ToyRobot) (x y : Int) (d : Direction) (hi : inv s = true) :
    inv (s.place x y d) = true := by
  by_cases hv : is_valid_position x y = true
  · rw [place_valid s x y d hv]
    have hb := (is_valid_iff x y).mp hv
    simp only [inv, Bool.not_true, Bool.false_or, decide_eq_true_eq]
    omega
  · rw [place_unaffected s x y d (by simpa using hv)]
    exact hi

theorem inv_move (s : ToyRobot) (hi : inv s = true) :
    ∃ s2, s.move = .ok s2 ∧ inv s2 = true := by
  rcases hp : s.placed with _ | _
  · exact ⟨s, move_unplaced s hp, hi⟩
  · obtain ⟨x, y, d, hx, hy, hd, hbx, hby⟩ := inv_elim s hi hp
    refine ⟨_, move_spec s x y d hp hx hy hd, ?_⟩
    by_cases hv : is_valid_position (x + d.delta.1) (y + d.delta.2) = true
    · rw [if_pos hv]
      have hb := (is_valid_iff _ _).mp hv
      simp only [inv, hd, hp, Bool.not_true, Bool.false_or, decide_eq_true_eq]
      omega
    · rw [if_neg hv]
      exact hi

theorem inv_rotate (s : ToyRobot) (cw : Bool) (hi : inv s = true) :
    ∃ s2, s.rotate cw = .ok s2 ∧ inv s2 = true := by
  rcases hp : s.placed with _ | _
  · exact ⟨s, rotate_unplaced s cw hp, hi⟩
  · obtain ⟨x, y, d, hx, hy, hd, hbx, hby⟩ := inv_elim s hi hp
    refine ⟨_, rotate_spec s d cw hp hd, ?_⟩
    simp only [inv, hx, hy, hp, Bool.not_true, Bool.false_or, decide_eq_true_eq]
    omega

theorem report_total (s : ToyRobot) (hi : inv s = true) :
    ∃ out, s.report = .ok out := by
  rcases hp : s.placed with _ | _
  · exact ⟨_, report_unplaced s hp⟩
  · obtain ⟨x, y, d, hx, hy, hd, hbx, hby⟩ := inv_elim s hi hp
    exact ⟨_, report_spec s d hp hd⟩

theorem set_direction_eq (s : ToyRobot) (d : Direction) (hd : s.direction = some d) :
    { s with direction := some d } = s := by
  cases s
  simp only at hd
  simp [hd]

theorem pc_place_noarg (robot : ToyRobot) (command : String)
    (hs : pySplit command = ["PLACE"]) :
    process_command robot command = .ok (robot, some "Invalid PLACE command") := by
  unfold process_command
  rw [hs]
  simp

theorem pc_place_arg (robot : ToyRobot) (command arg : String) (more : List String)
    (hs : pySplit command = "PLACE" :: arg :: more) :
    process_command robot command =
      match parsePlaceArg arg with
      | some (x, y, d) => .ok (robot.place x y d, none)
      | none => .ok (robot, some "Invalid PLACE command") := by
  unfold process_command
  rw [hs]
  simp

theorem pc_move (robot : ToyRobot) (command : String)
    (hs : pySplit command = ["MOVE"]) :
    process_command robot command =
      match robot.move with
      | .ok r => .ok (r, none)
      | .error e => .error e := by
  unfold process_command
  rw [hs]
  simp

theorem pc_left (robot : ToyRobot) (command : String)
    (hs : pySplit command = ["LEFT"]) :
    process_command robot command =
      match robot.rotate false with
      | .ok r => .ok (r, none)
      | .error e => .error e := by
  unfold process_command
  rw [hs]
  simp

theorem pc_right (robot : ToyRobot) (command : String)
    (hs : pySplit command = ["RIGHT"]) :
    process_command robot command =
      match robot.rotate true with
      | .ok r => .ok (r, none)
      | .error e => .error e := by
  unfold process_command
  rw [hs]
  simp

theorem pc_report (robot : ToyRobot) (command : String)
    (hs : pySplit command = ["REPORT"]) :
    process_command robot command =
      match robot.report with
      | .ok str => .ok (robot, some str)
      | .error e => .error e := by
  unfold process_command
  rw [hs]
  simp

theorem pc_unknown (robot : ToyRobot) (command tag : String) (rest : List String)
    (hs : pySplit command = tag :: rest)
    (h1 : tag ≠ "PLACE") (h2 : tag ≠ "MOVE") (h3 : tag ≠ "LEFT")
    (h4 : tag ≠ "RIGHT") (h5 : tag ≠ "REPORT") :
    process_command robot command = .ok (robot, some "Invalid command") := by
  unfold process_command
  rw [hs]
  simp [h1, h2, h3, h4, h5]

theorem pc_ok_cases (robot r2 : ToyRobot) (command : String) (out : Option String)
    (h : process_command robot command = .ok (r2, out)) :
    r2 = robot ∨ (∃ x y d, r2 = robot.place x y d) ∨
      robot.move = .ok r2 ∨ ∃ cw, robot.rotate cw = .ok r2 := by
  unfold process_command at h
  split at h
  · exact Except.noConfusion h
  · split at h
    · -- PLACE
      split at h
      · injection h with h2
        exact Or.inl (congrArg Prod.fst h2.symm)
      · split at h
        · injection h with h2
          exact Or.inr (Or.inl ⟨_, _, _, (congrArg Prod.fst h2.symm)⟩)
        · injection h with h2
          exact Or.inl (congrArg Prod.fst h2.symm)
    · split at h
      · -- MOVE
        split at h
        · rename_i r heq
          injection h with h2
          injection h2 with ha hb
          exact Or.inr (Or.inr (Or.inl (ha ▸ heq)))
        · exact Except.noConfusion h
      · split at h
        · -- LEFT
          split at h
          · rename_i r heq
            injection h with h2
            injection h2 with ha hb
            exact Or.inr (Or.inr (Or.inr ⟨false, ha ▸ heq⟩))
          · exact Except.noConfusion h
        · split at h
          · -- RIGHT
            split at h
            · rename_i r heq
              injection h with h2
              injection h2 with ha hb
              exact Or.inr (Or.inr (Or.inr ⟨true, ha ▸ heq⟩))
            · exact Except.noConfusion h
          · split at h
            · -- REPORT
              split at h
              · injection h with h2
                exact Or.inl (congrArg Prod.fst h2.symm)
              · exact Except.noConfusion h
            · injection h with h2
              exact Or.inl (congrArg Prod.fst h2.symm)

theorem pc_placed (robot r2 : ToyRobot) (command : String) (out : Option String)
    (hp : robot.placed = true)
    (h : process_command robot command = .ok (r2, out)) : r2.placed = true := by
  rcases pc_ok_cases robot r2 command out h with h2 | ⟨x, y, d, h2⟩ | h2 | ⟨cw, h2⟩
  · rw [h2]; exact hp
  · rw [h2]; exact place_placed robot x y d hp
  · rw [(move_frame robot r2 h2).2]; exact hp
  · rw [(rotate_frame robot r2 cw h2).2.2]; exact hp

theorem pc_inv (robot r2 : ToyRobot) (command : String) (out : Option String)
    (hi : inv robot = true)
    (h : process_command robot command = .ok (r2, out)) : inv r2 = true := by
  rcases pc_ok_cases robot r2 command out h with h2 | ⟨x, y, d, h2⟩ | h2 | ⟨cw, h2⟩
  · rw [h2]; exact hi
  · rw [h2]; exact inv_place robot x y d hi
  · obtain ⟨s2, hm, hs2⟩ := inv_move robot hi
    rw [hm] at h2
    injection h2 with h3
    rw [← h3]
    exact hs2
  · obtain ⟨s2, hm, hs2⟩ := inv_rotate robot cw hi
    rw [hm] at h2
    injection h2 with h3
    rw [← h3]
    exact hs2

theorem pc_total (robot : ToyRobot) (command tag : String) (rest : List String)
    (hi : inv robot = true) (hs : pySplit command = tag :: rest) :
    ∃ v, process_command robot command = .ok v := by
  unfold process_command
  rw [hs]
  by_cases h1 : tag = "PLACE"
  · cases rest with
    | nil => exact ⟨(robot, some "Invalid PLACE command"), by simp [h1]⟩
    | cons arg more =>
      rcases hpa : parsePlaceArg arg with _ | ⟨x, y, d⟩
      · exact ⟨(robot, some "Invalid PLACE command"), by simp [h1, hpa]⟩
      · exact ⟨(robot.place x y d, none), by simp [h1, hpa]⟩
  · by_cases h2 : tag = "MOVE"
    · obtain ⟨s2, hm, _⟩ := inv_move robot hi
      exact ⟨(s2, none), by simp [h1, h2, hm]⟩
    · by_cases h3 : tag = "LEFT"
      · obtain ⟨s2, hm, _⟩ := inv_rotate robot false hi
        exact ⟨(s2, none), by simp [h1, h2, h3, hm]⟩
      · by_cases h4 : tag = "RIGHT"
        · obtain ⟨s2, hm, _⟩ := inv_rotate robot true hi
          exact ⟨(s2, none), by simp [h1, h2, h3, h4, hm]⟩
        · by_cases h5 : tag = "REPORT"
          · obtain ⟨out, hr⟩ := report_total robot hi
            exact ⟨(robot, some out), by simp [h1, h2, h3, h4, h5, hr]⟩
          · exact ⟨(robot, some "Invalid command"), by simp [h1, h2, h3, h4, h5]⟩

theorem run_inv (cmds : List String) : ∀ robot r2 : ToyRobot, inv robot = true →
    run robot cmds = .ok r2 → inv r2 = true := by
  induction cmds with
  | nil =>
    intro robot r2 hi h
    injection h with h2
    rw [← h2]
    exact hi
  | cons c cs ih =>
    intro robot r2 hi h
    unfold run at h
    split at h
    · exact Except.noConfusion h
    · rename_i r out heq
      exact ih r r2 (pc_inv robot r c out hi heq) h

theorem run_placed (cmds : List String) : ∀ robot r2 : ToyRobot, robot.placed = true →
    run robot cmds = .ok r2 → r2.placed = true := by
  induction cmds with
  | nil =>
    intro robot r2 hp h
    injection h with h2
    rw [← h2]
    exact hp
  | cons c cs ih =>
    intro robot r2 hp h
    unfold run at h
    split at h
    · exact Except.noConfusion h
    · rename_i r out heq
      exact ih r r2 (pc_placed robot r c out hp heq) h

theorem parsePlaceArg_some_iff (t : String) (x y : Int) (d : Direction) :
    parsePlaceArg t = some (x, y, d) ↔
      ∃ a b c, pySplitComma t = [a, b, c] ∧ pyInt? a = some x ∧ pyInt? b = some y ∧
        Direction.fromName? c = some d := by
  constructor
  · intro h
    unfold parsePlaceArg at h
    split at h
    · rename_i heq
      split at h
      · rename_i x2 y2 d2 hx2 hy2 hd2
        injection h with h2
        injection h2 with ha h3
        injection h3 with hb hc
        subst ha
        subst hb
        subst hc
        exact ⟨_, _, _, heq, hx2, hy2, hd2⟩
      · exact Option.noConfusion h
    · exact Option.noConfusion h
  · rintro ⟨a, b, c, hsp, hx, hy, hd⟩
    unfold parsePlaceArg
    rw [hsp]
    simp [hx, hy, hd]

theorem rotStep_four (cw : Bool) (d : Direction) :
    rotStep cw (rotStep cw (rotStep cw (rotStep cw d))) = d := by
  cases cw <;> cases d <;> decide

/-! ## Claim theorems -/

/-- C1 counterexample: on an empty or all-whitespace command line,
`process_command` raises an uncaught `IndexError` (the `parts[0]` access on
an empty list is outside the `try` block) instead of returning the string
"Invalid command". -/
theorem C1_counterexample :
    process_command ToyRobot.init "" = .error .indexError ∧
    process_command ToyRobot.init "   " = .error .indexError ∧
    process_command ToyRobot.init "" ≠ .ok (ToyRobot.init, some "Invalid command") := by
  refine ⟨by decide, by decide, by decide⟩

/-- C1 (amended): on any command line with at least one whitespace token
and any robot state satisfying the state invariant, `process_command`
returns normally; when the first token is none of PLACE, MOVE, LEFT, RIGHT,
REPORT it returns the literal string "Invalid command". On an empty or
all-whitespace line it instead raises `IndexError`. -/
theorem C1_process_command (robot : ToyRobot) (command tag : String)
    (rest : List String) (hi : inv robot = true)
    (hs : pySplit command = tag :: rest) :
    (∃ v, process_command robot command = .ok v) ∧
    (tag ≠ "PLACE" → tag ≠ "MOVE" → tag ≠ "LEFT" → tag ≠ "RIGHT" → tag ≠ "REPORT" →
      process_command robot command = .ok (robot, some "Invalid command")) ∧
    process_command robot "" = .error .indexError := by
  refine ⟨pc_total robot command tag rest hi hs, ?_, rfl⟩
  intro h1 h2 h3 h4 h5
  exact pc_unknown robot command tag rest hs h1 h2 h3 h4 h5

theorem C1_witness :
    process_command ToyRobot.init "FOO" = .ok (ToyRobot.init, some "Invalid command") :=
  (C1_process_command ToyRobot.init "FOO" "FOO" [] (by decide) (by decide)).2.1
    (by decide) (by decide) (by decide) (by decide) (by decide)

/-- C2: the invariant "placed implies both coordinates are present and in
[0,4] and an orientation is present" holds of the initial state and is
preserved by `place`, `move`, `rotate`, every processed command, and every
processed command sequence. -/
theorem C2_invariant_preserved (s : ToyRobot) (x y : Int) (d : Direction) (cw : Bool)
    (cmd : String) (cmds : List String) (hi : inv s = true) :
    inv ToyRobot.init = true ∧
    inv (s.place x y d) = true ∧
    (∀ s2, s.move = .ok s2 → inv s2 = true) ∧
    (∀ s2, s.rotate cw = .ok s2 → inv s2 = true) ∧
    (∀ s2 out, process_command s cmd = .ok (s2, out) → inv s2 = true) ∧
    (∀ s2, run s cmds = .ok s2 → inv s2 = true) := by
  refine ⟨inv_init, inv_place s x y d hi, ?_, ?_, ?_, ?_⟩
  · intro s2 h
    obtain ⟨t, ht, hit⟩ := inv_move s hi
    rw [ht] at h
    injection h with h2
    rw [← h2]
    exact hit
  · intro s2 h
    obtain ⟨t, ht, hit⟩ := inv_rotate s cw hi
    rw [ht] at h
    injection h with h2
    rw [← h2]
    exact hit
  · intro s2 out h
    exact pc_inv s s2 cmd out hi h
  · intro s2 h
    exact run_inv cmds s s2 hi h

theorem C2_witness : inv (ToyRobot.init.place 0 1 .NORTH) = true :=
  (C2_invariant_preserved ToyRobot.init 0 0 .NORTH true ""
      ["PLACE 0,0,NORTH", "MOVE"] (by decide)).2.2.2.2.2
    (ToyRobot.init.place 0 1 .NORTH) (by decide)

/-- C3: `move` on a placed robot steps one unit in the direction given by
the orientation (NORTH: y+1, EAST: x+1, SOUTH: y-1, WEST: x-1) when the
candidate position is valid and leaves the position unchanged otherwise;
`move` on an unplaced robot is a no-op. -/
theorem C3_move (s : ToyRobot) (x y : Int) (d : Direction) :
    (s.placed = true → s.x = some x → s.y = some y → s.direction = some d →
      s.move = .ok (if is_valid_position (x + d.delta.1) (y + d.delta.2)
        then { s with x := some (x + d.delta.1), y := some (y + d.delta.2) }
        else s)) ∧
    (s.placed = false → s.move = .ok s) ∧
    Direction.NORTH.delta = (0, 1) ∧ Direction.EAST.delta = (1, 0) ∧
    Direction.SOUTH.delta = (0, -1) ∧ Direction.WEST.delta = (-1, 0) :=
  ⟨fun hp hx hy hd => move_spec s x y d hp hx hy hd,
   fun hp => move_unplaced s hp, by decide, by decide, by decide, by decide⟩

theorem C3_witness :
    (ToyRobot.init.place 0 4 .NORTH).move = .ok (ToyRobot.init.place 0 4 .NORTH) := by
  have h := (C3_move (ToyRobot.init.place 0 4 .NORTH) 0 4 .NORTH).1
    (by decide) (by decide) (by decide) (by decide)
  rw [h]
  decide

/-- C4: placing a robot anywhere on the table and reporting yields exactly
"x,y,NAME" with the coordinates in base 10 and the upper-case orientation
name; reporting on an unplaced robot yields exactly the fixed message. -/
theorem C4_place_report (s : ToyRobot) (x y : Int) (d : Direction)
    (hx : 0 ≤ x ∧ x ≤ 4) (hy : 0 ≤ y ∧ y ≤ 4) :
    (s.place x y d).report =
      .ok (toString x ++ "," ++ toString y ++ "," ++ d.pyName) ∧
    (s.placed = false → s.report = .ok "Robot not placed on the table") := by
  constructor
  · have hv : is_valid_position x y = true := (is_valid_iff x y).mpr ⟨hx, hy⟩
    rw [place_valid s x y d hv, report_spec _ d rfl rfl]
    rfl
  · exact fun hp => report_unplaced s hp

theorem C4_witness :
    (ToyRobot.init.place 2 3 .WEST).report = .ok "2,3,WEST" ∧
    ToyRobot.init.report = .ok "Robot not placed on the table" := by
  have h := C4_place_report ToyRobot.init 2 3 .WEST (by decide) (by decide)
  refine ⟨?_, h.2 rfl⟩
  rw [h.1]
  decide

/-- C5: `is_valid_position x y` is true exactly when both coordinates lie
in [0, 4]; it is a pure function of its two arguments. -/
theorem C5_is_valid_position (x y : Int) :
    is_valid_position x y = true ↔ (0 ≤ x ∧ x ≤ 4) ∧ (0 ≤ y ∧ y ≤ 4) :=
  is_valid_iff x y

theorem C5_witness :
    is_valid_position 0 4 = true ∧ is_valid_position 4 0 = true ∧
    is_valid_position 5 0 ≠ true ∧ is_valid_position 0 (-1) ≠ true := by
  refine ⟨(C5_is_valid_position 0 4).mpr (by decide),
    (C5_is_valid_position 4 0).mpr (by decide), fun h => ?_, fun h => ?_⟩
  · have h2 := (C5_is_valid_position 5 0).mp h
    omega
  · have h2 := (C5_is_valid_position 0 (-1)).mp h
    omega

/-- C6: on a placed robot, `rotate` advances the orientation value by +1
(clockwise) or -1 (counter-clockwise) modulo 4 in the cyclic order NORTH,
EAST, SOUTH, WEST; four consecutive rotations in the same direction restore
the original state; `rotate` on an unplaced robot is a no-op. -/
theorem C6_rotate (s : ToyRobot) (d : Direction) (cw : Bool)
    (hp : s.placed = true) (hd : s.direction = some d) :
    (∃ d2, s.rotate cw = .ok { s with direction := some d2 } ∧
      d2.value = (d.value + (if cw then 1 else -1)).emod 4) ∧
    (∃ s1 s2 s3 s4, s.rotate cw = .ok s1 ∧ s1.rotate cw = .ok s2 ∧
      s2.rotate cw = .ok s3 ∧ s3.rotate cw = .ok s4 ∧ s4 = s) ∧
    (∀ t : ToyRobot, t.placed = false → t.rotate cw = .ok t) := by
  refine ⟨⟨rotStep cw d, rotate_spec s d cw hp hd, by cases d <;> cases cw <;> decide⟩,
    ?_, fun t ht => rotate_unplaced t cw ht⟩
  refine ⟨_, _, _, _, rotate_spec s d cw hp hd, rotate_spec _ _ cw hp rfl,
    rotate_spec _ _ cw hp rfl, rotate_spec _ _ cw hp rfl, ?_⟩
  rw [rotStep_four cw d]
  exact set_direction_eq s d hd

theorem C6_witness :
    ToyRobot.init.rotate true = .ok ToyRobot.init ∧
    (ToyRobot.init.place 0 0 .NORTH).rotate true =
      .ok { ToyRobot.init.place 0 0 .NORTH with direction := some .EAST } :=
  ⟨(C6_rotate (ToyRobot.init.place 0 0 .NORTH) .NORTH true (by decide) (by decide)).2.2
      ToyRobot.init rfl, by decide⟩

/-- C7: a `place` call with an invalid target position leaves the whole
robot state exactly as it was (it is a total function: no exception, and it
produces no diagnostic), including when the robot was already placed. -/
theorem C7_place_rejected (s : ToyRobot) (x y : Int) (d : Direction)
    (h : is_valid_position x y = false) :
    s.place x y d = s :=
  place_unaffected s x y d h

theorem C7_witness :
    (ToyRobot.init.place 2 2 .EAST).place 5 5 .NORTH = ToyRobot.init.place 2 2 .EAST :=
  C7_place_rejected (ToyRobot.init.place 2 2 .EAST) 5 5 .NORTH (by decide)

/-- C8 counterexample: a PLACE line with an extra token after the argument
is accepted (the code reads only `parts[1]` and ignores later tokens), so
"succeeds only when there is exactly one further token" fails. -/
theorem C8_counterexample :
    process_command ToyRobot.init "PLACE 1,2,NORTH JUNK" =
      .ok (ToyRobot.init.place 1 2 .NORTH, none) ∧
    (ToyRobot.init.place 1 2 .NORTH).placed = true := by
  refine ⟨by decide, by decide⟩

/-- C8 (amended): for a line whose first token is PLACE, the command
succeeds exactly when a second token exists and that token (later tokens
are ignored) splits on commas into exactly three fields with the first two
parsing as integers and the third exactly one of the four orientation
names; on any parse failure of the second token, or when it is missing,
the result is the literal string "Invalid PLACE command" and the robot
state is unchanged. -/
theorem C8_place_parsing (robot : ToyRobot) (command : String) (rest : List String)
    (hs : pySplit command = "PLACE" :: rest) :
    (rest = [] → process_command robot command = .ok (robot, some "Invalid PLACE command")) ∧
    (∀ arg more, rest = arg :: more →
      (∀ x y d, parsePlaceArg arg = some (x, y, d) →
        process_command robot command = .ok (robot.place x y d, none)) ∧
      (parsePlaceArg arg = none →
        process_command robot command = .ok (robot, some "Invalid PLACE command")) ∧
      (∀ x y d, parsePlaceArg arg = some (x, y, d) ↔
        ∃ a b c, pySplitComma arg = [a, b, c] ∧ pyInt? a = some x ∧
          pyInt? b = some y ∧ Direction.fromName? c = some d)) := by
  constructor
  · intro he
    subst he
    exact pc_place_noarg robot command hs
  · intro arg more he
    subst he
    refine ⟨?_, ?_, fun x y d => parsePlaceArg_some_iff arg x y d⟩
    · intro x y d hpa
      rw [pc_place_arg robot command arg more hs, hpa]
    · intro hpa
      rw [pc_place_arg robot command arg more hs, hpa]

theorem C8_witness :
    process_command ToyRobot.init "PLACE 3,3,WEST" =
      .ok (ToyRobot.init.place 3 3 .WEST, none) :=
  ((C8_place_parsing ToyRobot.init "PLACE 3,3,WEST" ["3,3,WEST"] (by decide)).2
      "3,3,WEST" [] rfl).1 3 3 .WEST (by decide)

/-- C9: once placed, a robot stays placed under `place` (accepted or
rejected), `move`, `rotate`, any single processed command, and any
processed command sequence. -/
theorem C9_placed_forever (s : ToyRobot) (x y : Int) (d : Direction) (cw : Bool)
    (cmd : String) (cmds : List String) (hp : s.placed = true) :
    (s.place x y d).placed = true ∧
    (∀ s2, s.move = .ok s2 → s2.placed = true) ∧
    (∀ s2, s.rotate cw = .ok s2 → s2.placed = true) ∧
    (∀ s2 out, process_command s cmd = .ok (s2, out) → s2.placed = true) ∧
    (∀ s2, run s cmds = .ok s2 → s2.placed = true) := by
  refine ⟨place_placed s x y d hp, ?_, ?_, ?_, ?_⟩
  · intro s2 h
    rw [(move_frame s s2 h).2]
    exact hp
  · intro s2 h
    rw [(rotate_frame s s2 cw h).2.2]
    exact hp
  · intro s2 out h
    exact pc_placed s s2 cmd out hp h
  · intro s2 h
    exact run_placed cmds s s2 hp h

theorem C9_witness :
    ((ToyRobot.init.place 0 0 .NORTH).place 9 9 .EAST).placed = true :=
  (C9_placed_forever (ToyRobot.init.place 0 0 .NORTH) 9 9 .EAST true "" []
    (by decide)).1

/-- C10: `move` never changes the orientation or the placed flag, `rotate`
never changes the position or the placed flag, and a REPORT command leaves
the robot state untouched (`report` itself reads the state without writing
it). -/
theorem C10_frame (s : ToyRobot) (cw : Bool) :
    (∀ s2, s.move = .ok s2 → s2.direction = s.direction ∧ s2.placed = s.placed) ∧
    (∀ s2, s.rotate cw = .ok s2 → s2.x = s.x ∧ s2.y = s.y ∧ s2.placed = s.placed) ∧
    process_command s "REPORT" =
      (match s.report with
       | .ok str => .ok (s, some str)
       | .error e => .error e) :=
  ⟨fun s2 h => move_frame s s2 h, fun s2 h => rotate_frame s s2 cw h,
    pc_report s "REPORT" (by decide)⟩

theorem C10_witness :
    (ToyRobot.init.place 2 1 .EAST).direction = (ToyRobot.init.place 1 1 .EAST).direction ∧
    (ToyRobot.init.place 2 1 .EAST).placed = (ToyRobot.init.place 1 1 .EAST).placed :=
  (C10_frame (ToyRobot.init.place 1 1 .EAST) true).1 (ToyRobot.init.place 2 1 .EAST)
    (by decide)

end ToyRobotSim
